import Mathlib

/-!
Verification of the reconciliation and business-state-machine core of the
piNotionAutomation repository.

The Python modules `automation/update_business_state.py`,
`automation/sync_databases.py`, `automation/sync_oi_issue_list.py` and
`automation/execution_logger.py` are shallowly embedded: each relevant
function becomes a pure Lean function over explicit snapshot data, with the
Notion API calls replaced by an explicit trace of attempted writes and a
per-page success oracle (`apiOk`).  Dates are modelled as integer day
numbers (ISO date comparison on dates coincides with day-number
comparison), and the process clock is an explicit parameter carrying the
current day plus its already formatted `MM/DD` rendering.
-/

set_option autoImplicit false

namespace UpdateBusinessState

/-- A rich-text value together with its first fragment's style, as read and
written by `update_business_state.py` (`bold` plus `color`; a write payload
without explicit style means `bold = false`, `color = "default"`). -/
structure StyledText where
  content : String
  bold : Bool
  color : String
  deriving DecidableEq

/-- The partial update payload handed to `notion.pages.update`: each field is
`some v` when the payload names that property and `none` when the property is
left untouched by the write. -/
structure UpdateProps where
  businessState : Option StyledText
  lastState : Option String
  statusBuffer : Option String
  businessStatusUpdateDay : Option Int
  businessStateLog : Option String
  deriving DecidableEq

/-- The process clock: `today` is the current date as a day number
(`datetime.now().date()`), `mmdd` is its `strftime("%m/%d")` rendering. -/
structure Clock where
  today : Int
  mmdd : String
  deriving DecidableEq

/-- The per-company snapshot extracted by `get_active_companies`:
`properties.get` with default `''` for the four text fields, the derived
`_business_state_styled` flag (bold and orange on the first fragment), and
the optional `business_status_update_day` date. -/
structure CompanyProps where
  businessState : String
  statusBuffer : String
  lastState : String
  businessStateLog : String
  styled : Bool
  updateDay : Option Int
  deriving DecidableEq

structure Company where
  pageId : String
  props : CompanyProps
  deriving DecidableEq

/-- `sync_business_state` (update_business_state.py, lines 224-332): the
update payload it sends for one page.  The `_lastState` argument is accepted
but, as in the source, never used: the new `Last State` comes from the old
`status_buffer`. -/
def sync_business_state (businessState statusBuffer _lastState businessStateLog : String)
    (clock : Clock) (applyStyle : Bool) : UpdateProps :=
  let newLogEntry := "→" ++ businessState ++ "(" ++ clock.mmdd ++ ")"
  let updatedLog :=
    if businessStateLog ≠ "" then businessStateLog ++ "\n" ++ newLogEntry
    else newLogEntry
  let businessStateRichText :=
    if applyStyle then StyledText.mk businessState true "orange"
    else StyledText.mk businessState false "default"
  { businessState := some businessStateRichText
    lastState := some statusBuffer
    statusBuffer := some businessState
    businessStatusUpdateDay := some clock.today
    businessStateLog := some updatedLog }

/-- `reset_business_state_style` (lines 335-370): the update payload resets
only `Business State`, re-rendered with the default style; every other
property is untouched. -/
def reset_business_state_style (businessState : String) : UpdateProps :=
  { businessState := some (StyledText.mk businessState false "default")
    lastState := none
    statusBuffer := none
    businessStatusUpdateDay := none
    businessStateLog := none }

/-- Result of the sync pass `process_active_companies`: the trace of
attempted page updates, the ids that were updated successfully (the
"just-updated" set returned to `main`), and the success/error counters. -/
structure SyncPass where
  writes : List (String × UpdateProps)
  updatedPageIds : List String
  updatedCount : Nat
  errorCount : Nat
  deriving DecidableEq

/-- `process_active_companies` (lines 373-422): for each company, when
`Business State` and `status_buffer` differ, attempt `sync_business_state`
(recording the attempted write); on success the page id joins the
just-updated set, on failure the error counter grows. -/
def process_active_companies (apiOk : String → Bool) (clock : Clock) :
    List Company → SyncPass
  | [] => ⟨[], [], 0, 0⟩
  | c :: rest =>
    let r := process_active_companies apiOk clock rest
    if c.props.businessState ≠ c.props.statusBuffer then
      let u := sync_business_state c.props.businessState c.props.statusBuffer
        c.props.lastState c.props.businessStateLog clock true
      if apiOk c.pageId then
        ⟨(c.pageId, u) :: r.writes, c.pageId :: r.updatedPageIds,
          r.updatedCount + 1, r.errorCount⟩
      else
        ⟨(c.pageId, u) :: r.writes, r.updatedPageIds,
          r.updatedCount, r.errorCount + 1⟩
    else r

/-- `_load_reset_days` (lines 203-221) over the optional contents of
`schedule_config.yml` (given as its list of lines; `none` when the file does
not exist): the first line whose comment-stripped text starts with
`business_state_reset_days:` and whose value is purely numeric wins,
otherwise the default applies. -/
def parseResetLine (line : String) : Option Nat :=
  let stripped := (((line.splitOn "#").headD "")).trim
  if stripped.startsWith "business_state_reset_days:" then
    let value := (stripped.drop "business_state_reset_days:".length).trim
    if value ≠ "" ∧ value.all Char.isDigit then value.toNat? else none
  else none

def _load_reset_days (config : Option (List String)) (defaultDays : Nat) : Nat :=
  match config with
  | none => defaultDays
  | some lines => ((lines.filterMap parseResetLine).head?).getD defaultDays

/-- Result of the style-expiry pass `reset_old_business_state_styles`. -/
structure ResetPass where
  writes : List (String × UpdateProps)
  resetCount : Nat
  skippedCount : Nat
  errorCount : Nat
  deriving DecidableEq

/-- `reset_old_business_state_styles` (lines 425-503): skip pages in the
just-updated set, then pages not currently styled, then pages with no
`business_status_update_day`; for the rest, when the update date is on or
before `today - resetDays`, attempt `reset_business_state_style`. -/
def reset_old_business_state_styles (apiOk : String → Bool) (resetDays : Nat)
    (today : Int) (skipPageIds : List String) : List Company → ResetPass
  | [] => ⟨[], 0, 0, 0⟩
  | c :: rest =>
    let r := reset_old_business_state_styles apiOk resetDays today skipPageIds rest
    if skipPageIds.contains c.pageId then r
    else if !c.props.styled then
      ⟨r.writes, r.resetCount, r.skippedCount + 1, r.errorCount⟩
    else
      match c.props.updateDay with
      | none => r
      | some updateDate =>
        if updateDate ≤ today - (resetDays : Int) then
          if apiOk c.pageId then
            ⟨(c.pageId, reset_business_state_style c.props.businessState) :: r.writes,
              r.resetCount + 1, r.skippedCount, r.errorCount⟩
          else
            ⟨(c.pageId, reset_business_state_style c.props.businessState) :: r.writes,
              r.resetCount, r.skippedCount, r.errorCount + 1⟩
        else r

/-- The combined eligibility test of the style-expiry loop, used to state
its characterization: not skipped, currently styled, and updated on or
before the cutoff. -/
def expireEligible (skipPageIds : List String) (resetDays : Nat) (today : Int)
    (c : Company) : Bool :=
  !skipPageIds.contains c.pageId && c.props.styled &&
    (match c.props.updateDay with
     | none => false
     | some d => decide (d ≤ today - (resetDays : Int)))

/-- The write trace of one non-fatal run of `main`: the sync pass over the
active companies followed by the style-expiry pass, the latter skipping the
just-updated set produced by the former (lines 543-547). -/
def runWrites (apiOk : String → Bool) (clock : Clock) (resetDays : Nat)
    (companies : List Company) : List (String × UpdateProps) :=
  let sp := process_active_companies apiOk clock companies
  sp.writes ++
    (reset_old_business_state_styles apiOk resetDays clock.today
      sp.updatedPageIds companies).writes

/-- `main` (lines 506-569): the reported status and the process exit code of
one run.  `fatal` tells whether an exception escaped the `try` block; the
function never calls `sys.exit`, so the process exit code is `0` on every
path. -/
def updateBusinessStateRun (fatal : Bool) (apiOk : String → Bool) (clock : Clock)
    (resetDays : Nat) (companies : List Company) : String × Nat :=
  if fatal then ("異常終了", 0)
  else
    let sp := process_active_companies apiOk clock companies
    let _rp := reset_old_business_state_styles apiOk resetDays clock.today
      sp.updatedPageIds companies
    ("正常完了", 0)

end UpdateBusinessState

namespace SyncDatabases

/-- The `Active Flag` property payload as the three scripts inspect it:
`properties.get("Active Flag", {})` followed by a check of its `type` tag and
of the (possibly null) payload's `name`.  `selectFlag none` / `statusFlag
none` model a cleared (null) select/status value; `otherType` a property of
any other type; `absent` a record without the property. -/
inductive ActiveFlagProp where
  | selectFlag (name : Option String)
  | statusFlag (name : Option String)
  | otherType
  | absent
  deriving DecidableEq

/-- `is_active_flag` (sync_databases.py, lines 102-113): select- and
status-typed flags named `Active` both count as active. -/
def is_active_flag (flag : ActiveFlagProp) : Bool :=
  match flag with
  | .selectFlag (some name) => name == "Active"
  | .statusFlag (some name) => name == "Active"
  | _ => false

/-- The inline active check of `get_active_companies`
(update_business_state.py, lines 100-102): only a select-typed flag named
`Active` counts. -/
def updateBusinessStateActiveCheck (flag : ActiveFlagProp) : Bool :=
  match flag with
  | .selectFlag (some name) => name == "Active"
  | _ => false

/-- The inline active check of `get_active_issues`
(sync_oi_issue_list.py, lines 66-74): only a select-typed flag named
`Active` counts. -/
def syncOiActiveCheck (flag : ActiveFlagProp) : Bool :=
  match flag with
  | .selectFlag (some name) => name == "Active"
  | _ => false

/-- An item of a rollup array as `get_company_name` inspects it: either a
title-typed item carrying its `plain_text` fragments, or anything else. -/
inductive RollupItem where
  | titleItem (frags : List String)
  | otherItem
  deriving DecidableEq

/-- The fields of a page that `get_company_name` (sync_databases.py, lines
68-99) reads: the `企業名` title fragments when that property exists with
title type, the `Name` rollup array, and the `No` title fragments. -/
structure CnPage where
  kigyomei : Option (List String)
  nameRollup : Option (List RollupItem)
  noTitle : Option (List String)
  deriving DecidableEq

/-- Python `str.isdigit` restricted to ASCII: non-empty and all digits. -/
def isDigitStr (s : String) : Bool :=
  s ≠ "" && s.data.all Char.isDigit

/-- `get_company_name` (sync_databases.py, lines 68-99): try `企業名`
(title), then the first title item of the `Name` rollup with a non-empty
fragment list, then `No` (title) unless its text is purely numeric; a
candidate with non-empty fragments is returned even when its joined text is
empty. -/
def get_company_name (page : CnPage) : Option String :=
  match page.kigyomei with
  | some frags =>
    if frags ≠ [] then some (String.join frags)
    else getFromRollup page
  | none => getFromRollup page
where
  getFromRollup (page : CnPage) : Option String :=
    let fromRollup :=
      match page.nameRollup with
      | some items =>
        items.findSome? fun item =>
          match item with
          | .titleItem frags => if frags ≠ [] then some (String.join frags) else none
          | .otherItem => none
      | none => none
    match fromRollup with
    | some name => some name
    | none =>
      match page.noTitle with
      | some frags =>
        if frags ≠ [] then
          let text := String.join frags
          if !isDigitStr text then some text else none
        else none
      | none => none

/-- The identity contract as the specification words it: collect the
candidate texts in priority order — the primary `企業名` title text, the
texts of the title items wrapped in the `Name` rollup, and the `No` title
text unless purely numeric — and return the first non-empty one. -/
def identitySpec (page : CnPage) : Option String :=
  let primary :=
    match page.kigyomei with
    | some frags => [String.join frags]
    | none => []
  let rollupTexts :=
    match page.nameRollup with
    | some items =>
      items.filterMap fun item =>
        match item with
        | .titleItem frags => some (String.join frags)
        | .otherItem => none
    | none => []
  let secondary :=
    match page.noTitle with
    | some frags =>
      let text := String.join frags
      if !isDigitStr text then [text] else []
    | none => []
  ((primary ++ rollupTexts ++ secondary).filter (fun t => t ≠ "")).head?

/-- Amended identity contract, candidate lists: the primary `企業名` title
text when its fragment list is non-empty (the joined text itself may be
empty). -/
def primaryCandidates (page : CnPage) : List String :=
  match page.kigyomei with
  | some frags => if frags ≠ [] then [String.join frags] else []
  | none => []

/-- Amended identity contract: the text of the first `Name` rollup title
item whose fragment list is non-empty. -/
def rollupCandidates (page : CnPage) : List String :=
  match page.nameRollup with
  | some items =>
    ((items.filterMap fun item =>
      match item with
      | RollupItem.titleItem frags =>
        if frags ≠ [] then some (String.join frags) else none
      | RollupItem.otherItem => none).take 1)
  | none => []

/-- Amended identity contract: the `No` title text when its fragment list is
non-empty and the text is not purely numeric. -/
def secondaryCandidates (page : CnPage) : List String :=
  match page.noTitle with
  | some frags =>
    if frags ≠ [] ∧ !isDigitStr (String.join frags) then [String.join frags] else []
  | none => []

/-- The amended identity contract: the first candidate in priority order —
the identity extraction returns the joined text of the first candidate field
whose fragment list is non-empty (rejecting a purely numeric secondary
title), even when that joined text is the empty string; `None` only when no
candidate qualifies. -/
def identityAmended (page : CnPage) : Option String :=
  (primaryCandidates page ++ rollupCandidates page ++ secondaryCandidates page).head?

end SyncDatabases

namespace Reconciliation

/-- The create loop shared by the two reconciliation `main`s
(sync_databases.py 236-243, sync_oi_issue_list.py 382-396): every missing
item is attempted in order regardless of earlier failures, successes and
failures are counted independently.  `outcome` tells whether the store
accepted the create for a given item. -/
structure CreateResult where
  created : Nat
  failed : Nat
  attempted : List (String × String)
  deriving DecidableEq

def createLoop (outcome : String × String → Bool) :
    List (String × String) → CreateResult
  | [] => ⟨0, 0, []⟩
  | item :: rest =>
    let r := createLoop outcome rest
    if outcome item then ⟨r.created + 1, r.failed, item :: r.attempted⟩
    else ⟨r.created, r.failed + 1, item :: r.attempted⟩

/-- `sync_databases.main` (lines 179-281): reported status and process exit
code of a run over the given missing-company batch; `fatal` tells whether an
exception escaped the `try` block.  `sys.exit(1)` fires exactly when the
exit code was set to 1. -/
def syncDatabasesRun (fatal : Bool) (outcome : String × String → Bool)
    (missing : List (String × String)) : String × Nat :=
  if fatal then ("異常終了", 1)
  else
    let r := createLoop outcome missing
    if r.failed > 0 then ("異常終了", 1) else ("正常完了", 0)

/-- `sync_oi_issue_list.main` (lines 334-429): same exit discipline as
`sync_databases.main`. -/
def syncOiRun (fatal : Bool) (outcome : String × String → Bool)
    (missing : List (String × String)) : String × Nat :=
  if fatal then ("異常終了", 1)
  else
    let r := createLoop outcome missing
    if r.failed > 0 then ("異常終了", 1) else ("正常完了", 0)

end Reconciliation

namespace SyncOi

/-- Python `str.strip()` (ASCII whitespace), on the character data. -/
def pyStrip (s : String) : String :=
  String.mk (((s.data.dropWhile Char.isWhitespace).reverse.dropWhile
    Char.isWhitespace).reverse)

/-- Helper for Python `str.split(',')`: accumulate the current chunk. -/
def splitCommaAux : List Char → List Char → List String
  | [], acc => [String.mk acc.reverse]
  | c :: rest, acc =>
    if c = ',' then String.mk acc.reverse :: splitCommaAux rest []
    else splitCommaAux rest (c :: acc)

/-- Python `str.split(',')`: split on every comma, keeping empty chunks. -/
def pySplitComma (s : String) : List String :=
  splitCommaAux s.data []

def digitsToNat (l : List Char) : Nat :=
  l.foldl (fun n c => n * 10 + (c.toNat - 48)) 0

/-- Python `float(text)` as used by `build_property_update`, with numeric
values modelled as integers: parse an optional sign followed by digits;
`none` models the `ValueError` path. -/
def pyToInt? (s : String) : Option Int :=
  match s.data with
  | '-' :: rest =>
    if rest ≠ [] ∧ rest.all Char.isDigit then some (-(digitsToNat rest : Int))
    else none
  | l =>
    if l ≠ [] ∧ l.all Char.isDigit then some ((digitsToNat l : Int))
    else none

/-- A snapshot page of the OI List Share database as `get_share_entries`
(sync_oi_issue_list.py, lines 233-259) reads it: the extracted (stripped)
title text — `""` when the title property is missing or empty — and the page
ids referenced by the `reference` relation property. -/
structure SharePage where
  title : String
  relations : List String
  deriving DecidableEq

/-- The titles registered in the `entries` map by `get_share_entries`: every
non-empty extracted title. -/
def entryTitles (pages : List SharePage) : List String :=
  pages.filterMap fun p => if p.title ≠ "" then some p.title else none

/-- The `linked_issue_ids` set of `get_share_entries`: all ids referenced by
any page's `reference` relation. -/
def linkedIssueIds (pages : List SharePage) : List String :=
  pages.foldr (fun p acc => p.relations ++ acc) []

/-- The `missing_titles` computation of `sync_oi_issue_list.main` (lines
367-371): active issues (title, page id) whose title is not an existing
share entry and whose page id is not already linked. -/
def missingTitles (activeIssues : List (String × String))
    (sharePages : List SharePage) : List (String × String) :=
  activeIssues.filter fun a =>
    !(entryTitles sharePages).contains a.1 && !(linkedIssueIds sharePages).contains a.2

/-- The pages produced by `create_share_entry` (lines 299-331) for a batch of
missing items: each new page carries the issue title as its title property
and a single `reference` relation to the issue page (fetching such a page
back yields exactly these title and relation values; the titles produced by
`get_active_issues` are already stripped, and `str.strip` is idempotent). -/
def createdPages (missing : List (String × String)) : List SharePage :=
  missing.map fun a => ⟨a.1, [a.2]⟩

/-- A Notion property payload of the kinds that
`extract_plain_text_from_property` (sync_oi_issue_list.py, lines 114-158)
normalizes.  Rich-text-like payloads carry their `plain_text` fragments;
numeric values are modelled as integers. -/
inductive RollupArrayItem where
  | titleItem (frags : List String)
  | richTextItem (frags : List String)
  | selectItem (name : Option String)
  | statusItem (name : Option String)
  | peopleItem (names : List String)
  | numberItem (value : Option Int)
  | dateItem (start : Option String)
  | otherItem
  deriving DecidableEq

inductive RollupVal where
  | arrayRollup (items : List RollupArrayItem)
  | numberRollup (value : Option Int)
  | dateRollup (start : Option String)
  | otherRollup
  deriving DecidableEq

inductive PropValue where
  | titleProp (frags : List String)
  | richTextProp (frags : List String)
  | selectProp (name : Option String)
  | statusProp (name : Option String)
  | numberProp (value : Option Int)
  | multiSelectProp (names : List String)
  | rollupProp (value : RollupVal)
  | otherProp
  deriving DecidableEq

/-- `_extract_text_from_rich_text` (lines 85-86): join the fragments and
strip surrounding whitespace. -/
def extractTextFromRichText (frags : List String) : String :=
  pyStrip (String.join frags)

/-- `_rollup_item_to_text` (lines 89-111). -/
def rollupItemToText (item : RollupArrayItem) : String :=
  match item with
  | .titleItem frags => extractTextFromRichText frags
  | .richTextItem frags => extractTextFromRichText frags
  | .selectItem name => name.getD ""
  | .statusItem name => name.getD ""
  | .peopleItem names => String.intercalate ", " (names.filter (fun n => n ≠ ""))
  | .numberItem value =>
    match value with
    | none => ""
    | some n => toString n
  | .dateItem start => start.getD ""
  | .otherItem => ""

/-- `extract_plain_text_from_property` (lines 114-158); the argument is
`none` when `properties.get` found nothing (`if not prop_data: return ''`). -/
def extract_plain_text_from_property (propData : Option PropValue) : String :=
  match propData with
  | none => ""
  | some p =>
    match p with
    | .titleProp frags => extractTextFromRichText frags
    | .richTextProp frags => extractTextFromRichText frags
    | .selectProp name => name.getD ""
    | .statusProp name => name.getD ""
    | .numberProp value =>
      match value with
      | none => ""
      | some n => toString n
    | .multiSelectProp names =>
      String.intercalate ", " (names.filter (fun n => n ≠ ""))
    | .rollupProp value =>
      match value with
      | .arrayRollup items =>
        String.intercalate ", "
          (((items.map rollupItemToText).filter (fun t => t ≠ "")))
      | .numberRollup v =>
        match v with
        | none => ""
        | some n => toString n
      | .dateRollup start => start.getD ""
      | .otherRollup => ""
    | .otherProp => ""

/-- The native write payloads `build_property_update` can produce. -/
inductive WritePayload where
  | richTextW (content : String)
  | titleW (content : String)
  | selectW (name : String)
  | statusW (name : String)
  | numberW (value : Int)
  | multiSelectW (names : List String)
  deriving DecidableEq

/-- `build_property_update` (lines 161-225): convert the normalized text
back into the target property's native representation; empty values, absent
or unsupported target types, and unparsable numbers yield no payload. -/
def build_property_update (propData : Option PropValue) (newValue : String) :
    Option WritePayload :=
  if newValue = "" then none
  else
    match propData with
    | some (.richTextProp _) => some (.richTextW newValue)
    | some (.titleProp _) => some (.titleW newValue)
    | some (.selectProp _) => some (.selectW newValue)
    | some (.statusProp _) => some (.statusW newValue)
    | some (.numberProp _) => (pyToInt? newValue).map .numberW
    | some (.multiSelectProp _) =>
      let options := ((pySplitComma newValue).map pyStrip).filter (fun o => o ≠ "")
      if options = [] then none else some (.multiSelectW options)
    | _ => none

/-- `property_matches` (lines 228-231). -/
def property_matches (propData : Option PropValue) (newValue : String) : Bool :=
  extract_plain_text_from_property propData == newValue

/-- The `reference_pairs` of `copy_reference_properties` (lines 264-267). -/
def referencePairs : List (String × String) :=
  [("オープンイノベーションとの親和性_ref", "オープンイノベーションとの親和性"),
   ("探索難易度_ref", "探索難易度")]

/-- A page of the share database as `copy_reference_properties` iterates it:
its id and its property map. -/
structure OiPage where
  pageId : String
  props : List (String × PropValue)
  deriving DecidableEq

def getProp (props : List (String × PropValue)) (name : String) : Option PropValue :=
  (props.find? (fun kv => kv.1 == name)).map (fun kv => kv.2)

/-- The body of the inner loop of `copy_reference_properties` (lines
277-290) for one field pair: the staged update, if any. -/
def stagePair (props : List (String × PropValue)) (pair : String × String) :
    Option (String × WritePayload) :=
  match getProp props pair.1, getProp props pair.2 with
  | some sourceData, some targetData =>
    let newValue := extract_plain_text_from_property (some sourceData)
    if newValue = "" then none
    else if property_matches (some targetData) newValue then none
    else (build_property_update (some targetData) newValue).map fun u => (pair.2, u)
  | _, _ => none

/-- `copy_reference_properties` (lines 262-296): one `pages.update` call per
page whose staged payload is non-empty. -/
def copy_reference_properties (pages : List OiPage) :
    List (String × List (String × WritePayload)) :=
  pages.filterMap fun page =>
    let updatePayload := referencePairs.filterMap (stagePair page.props)
    if updatePayload.isEmpty then none else some (page.pageId, updatePayload)

end SyncOi

namespace ExecutionLogger

/-- The page payload built by `save_execution_log` (execution_logger.py,
lines 173-210): note the log body truncated to 2000 characters. -/
structure LogPage where
  name : String
  dateTime : String
  status : String
  logBody : String
  deriving DecidableEq

def buildLogPage (scriptName timestamp dateTime status logContent : String) :
    LogPage :=
  { name := if scriptName ≠ "" then scriptName ++ "_" ++ timestamp else timestamp
    dateTime := dateTime
    status := status
    logBody := logContent.take 2000 }

/-- `cleanup_old_logs` (lines 109-156): the query for old pages may raise (an
`Except.error`, propagated to the caller); archive failures for individual
pages are caught in the loop, printed, and counted out.  Returns the number
of archived pages and the printed failure messages. -/
def cleanup_old_logs (queryOldPages : Except String (List String))
    (archiveOk : String → Bool) : Except String (Nat × List String) :=
  match queryOldPages with
  | .error e => .error e
  | .ok pages =>
    .ok (pages.foldr
      (fun pageId acc =>
        if archiveOk pageId then (acc.1 + 1, acc.2)
        else (acc.1, ("✗ Failed to archive old log (" ++ pageId ++ ")") :: acc.2))
      (0, []))

/-- The `try` block of `save_execution_log` (lines 172-215): create the log
page, print the success line, then run cleanup when an API token was given.
Returns the lines printed so far paired with the block's outcome; an
`Except.error` is an exception leaving the block. -/
def attemptSaveLog (createPage : LogPage → Except String Unit)
    (cleanupResult : Except String (Nat × List String)) (hasToken : Bool)
    (page : LogPage) : List String × Except String Unit :=
  match createPage page with
  | .error e => ([], .error e)
  | .ok _ =>
    let savedMsg := "✓ Execution log saved to database"
    if hasToken then
      match cleanupResult with
      | .error e => ([savedMsg], .error e)
      | .ok r => (savedMsg :: r.2, .ok ())
    else ([savedMsg], .ok ())

/-- `save_execution_log` (lines 159-217): the `try` block wrapped in the
`except Exception` handler, which prints the failure and returns normally.
The second component is what escapes to the caller. -/
def save_execution_log (createPage : LogPage → Except String Unit)
    (cleanupResult : Except String (Nat × List String)) (hasToken : Bool)
    (page : LogPage) : List String × Except String Unit :=
  match attemptSaveLog createPage cleanupResult hasToken page with
  | (msgs, .ok _) => (msgs, .ok ())
  | (msgs, .error e) =>
    (msgs ++ ["✗ Failed to save execution log: " ++ e], .ok ())

end ExecutionLogger

namespace UpdateBusinessState

theorem process_writes_cons (apiOk : String → Bool) (clock : Clock)
    (c : Company) (rest : List Company) :
    (process_active_companies apiOk clock (c :: rest)).writes =
      if c.props.businessState ≠ c.props.statusBuffer then
        (c.pageId, sync_business_state c.props.businessState c.props.statusBuffer
            c.props.lastState c.props.businessStateLog clock true) ::
          (process_active_companies apiOk clock rest).writes
      else (process_active_companies apiOk clock rest).writes := by
  simp only [process_active_companies]
  split
  · split <;> rfl
  · rfl

theorem process_updatedPageIds_cons (apiOk : String → Bool) (clock : Clock)
    (c : Company) (rest : List Company) :
    (process_active_companies apiOk clock (c :: rest)).updatedPageIds =
      if c.props.businessState ≠ c.props.statusBuffer then
        (if apiOk c.pageId then
          c.pageId :: (process_active_companies apiOk clock rest).updatedPageIds
        else (process_active_companies apiOk clock rest).updatedPageIds)
      else (process_active_companies apiOk clock rest).updatedPageIds := by
  simp only [process_active_companies]
  split
  · split <;> rfl
  · rfl

theorem process_writes_mem (apiOk : String → Bool) (clock : Clock) :
    ∀ (cs : List Company) (w : String × UpdateProps),
      w ∈ (process_active_companies apiOk clock cs).writes →
      ∃ c, c ∈ cs ∧ c.props.businessState ≠ c.props.statusBuffer ∧
        w = (c.pageId, sync_business_state c.props.businessState c.props.statusBuffer
          c.props.lastState c.props.businessStateLog clock true) := by
  intro cs
  induction cs with
  | nil => intro w h; simp [process_active_companies] at h
  | cons c rest ih =>
    intro w h
    rw [process_writes_cons] at h
    by_cases hne : c.props.businessState ≠ c.props.statusBuffer
    · rw [if_pos hne] at h
      rcases List.mem_cons.mp h with hw | hw
      · exact ⟨c, List.mem_cons_self c rest, hne, hw⟩
      · obtain ⟨d, hd, hdne, hdw⟩ := ih w hw
        exact ⟨d, List.mem_cons_of_mem c hd, hdne, hdw⟩
    · rw [if_neg hne] at h
      obtain ⟨d, hd, hdne, hdw⟩ := ih w h
      exact ⟨d, List.mem_cons_of_mem c hd, hdne, hdw⟩

theorem process_write_pageId_mem (apiOk : String → Bool) (clock : Clock)
    (cs : List Company) (w : String × UpdateProps)
    (h : w ∈ (process_active_companies apiOk clock cs).writes) :
    w.1 ∈ cs.map Company.pageId := by
  obtain ⟨c, hc, -, rfl⟩ := process_writes_mem apiOk clock cs w h
  exact List.mem_map_of_mem Company.pageId hc

theorem process_writes_filter (apiOk : String → Bool) (clock : Clock) :
    ∀ (cs : List Company) (c : Company), c ∈ cs →
      (cs.map Company.pageId).Nodup →
      (process_active_companies apiOk clock cs).writes.filter
          (fun w => w.1 == c.pageId) =
        if c.props.businessState ≠ c.props.statusBuffer then
          [(c.pageId, sync_business_state c.props.businessState c.props.statusBuffer
            c.props.lastState c.props.businessStateLog clock true)]
        else [] := by
  intro cs
  induction cs with
  | nil => intro c hc; exact absurd hc (List.not_mem_nil c)
  | cons d rest ih =>
    intro c hc hnd
    rw [List.map_cons, List.nodup_cons] at hnd
    rw [process_writes_cons]
    rcases List.mem_cons.mp hc with rfl | hc'
    · have hrest : (process_active_companies apiOk clock rest).writes.filter
          (fun w => w.1 == c.pageId) = [] := by
        apply List.filter_eq_nil_iff.mpr
        intro w hw
        have hmem := process_write_pageId_mem apiOk clock rest w hw
        simp only [beq_iff_eq]
        intro hwc
        exact hnd.1 (hwc ▸ hmem)
      split
      · rw [List.filter_cons_of_pos (by simp), hrest]
      · exact hrest
    · have hne : d.pageId ≠ c.pageId := by
        intro he
        exact hnd.1 (he ▸ List.mem_map_of_mem Company.pageId hc')
      split
      · rw [List.filter_cons_of_neg (by simpa using hne)]
        exact ih c hc' hnd.2
      · exact ih c hc' hnd.2

theorem sync_business_state_log_eq (bs sb ls log : String) (clock : Clock)
    (applyStyle : Bool) :
    (sync_business_state bs sb ls log clock applyStyle).businessStateLog =
      some ((if log = "" then "" else log ++ "\n") ++
        ("→" ++ bs ++ "(" ++ clock.mmdd ++ ")")) := by
  by_cases h : log = ""
  · simp [sync_business_state, h]
  · simp [sync_business_state, h, String.append_assoc]

end UpdateBusinessState

/-- C1: for every active record, the sync transition fires if and only if
`business_state` differs from `status_buffer`; when it fires, the single
multi-field update sets `last_state` to the old `status_buffer`,
`status_buffer` to the old `business_state`, `business_status_update_day` to
today, appends `"→{business_state}({MM/DD})"` to the log (the sole line when
the old log was empty), and re-renders `business_state` bold and orange; a
converged record gets no write. -/
theorem C1_sync_transition (apiOk : String → Bool)
    (clock : UpdateBusinessState.Clock)
    (companies : List UpdateBusinessState.Company)
    (c : UpdateBusinessState.Company) (hc : c ∈ companies)
    (hnd : (companies.map UpdateBusinessState.Company.pageId).Nodup) :
    ((UpdateBusinessState.process_active_companies apiOk clock companies).writes.filter
        (fun w => w.1 == c.pageId) =
      if c.props.businessState ≠ c.props.statusBuffer then
        [(c.pageId, UpdateBusinessState.sync_business_state c.props.businessState
          c.props.statusBuffer c.props.lastState c.props.businessStateLog clock true)]
      else []) ∧
    (∀ bs sb ls log : String,
      (UpdateBusinessState.sync_business_state bs sb ls log clock true).lastState =
          some sb ∧
      (UpdateBusinessState.sync_business_state bs sb ls log clock true).statusBuffer =
          some bs ∧
      (UpdateBusinessState.sync_business_state bs sb ls log clock
          true).businessStatusUpdateDay = some clock.today ∧
      (UpdateBusinessState.sync_business_state bs sb ls log clock
          true).businessStateLog =
        some ((if log = "" then "" else log ++ "\n") ++
          ("→" ++ bs ++ "(" ++ clock.mmdd ++ ")")) ∧
      (UpdateBusinessState.sync_business_state bs sb ls log clock true).businessState =
        some (UpdateBusinessState.StyledText.mk bs true "orange")) := by
  refine ⟨UpdateBusinessState.process_writes_filter apiOk clock companies c hc hnd,
    fun bs sb ls log => ⟨rfl, rfl, rfl,
      UpdateBusinessState.sync_business_state_log_eq bs sb ls log clock true, rfl⟩⟩

namespace UpdateBusinessState

theorem reset_writes_cons (apiOk : String → Bool) (resetDays : Nat) (today : Int)
    (skipPageIds : List String) (c : Company) (rest : List Company) :
    (reset_old_business_state_styles apiOk resetDays today skipPageIds
        (c :: rest)).writes =
      if expireEligible skipPageIds resetDays today c then
        (c.pageId, reset_business_state_style c.props.businessState) ::
          (reset_old_business_state_styles apiOk resetDays today skipPageIds rest).writes
      else
        (reset_old_business_state_styles apiOk resetDays today skipPageIds rest).writes := by
  simp only [reset_old_business_state_styles, expireEligible]
  by_cases hs : skipPageIds.contains c.pageId = true
  · simp only [hs]; simp
  · rw [Bool.not_eq_true] at hs
    by_cases hst : c.props.styled = true
    · rcases Option.eq_none_or_eq_some c.props.updateDay with hd | ⟨d, hd⟩
      · simp only [hs, hst, hd]; simp
      · by_cases hcut : d ≤ today - (resetDays : Int)
        · by_cases hok : apiOk c.pageId = true
          · simp only [hs, hst, hd, hok]; simp [hcut]
          · rw [Bool.not_eq_true] at hok
            simp only [hs, hst, hd, hok]; simp [hcut]
        · simp only [hs, hst, hd]; simp [hcut]
    · rw [Bool.not_eq_true] at hst
      simp only [hs, hst]; simp

theorem reset_writes_mem (apiOk : String → Bool) (resetDays : Nat) (today : Int)
    (skipPageIds : List String) :
    ∀ (cs : List Company) (w : String × UpdateProps),
      w ∈ (reset_old_business_state_styles apiOk resetDays today skipPageIds cs).writes →
      ∃ c, c ∈ cs ∧ expireEligible skipPageIds resetDays today c = true ∧
        w = (c.pageId, reset_business_state_style c.props.businessState) := by
  intro cs
  induction cs with
  | nil => intro w h; simp [reset_old_business_state_styles] at h
  | cons c rest ih =>
    intro w h
    rw [reset_writes_cons] at h
    by_cases he : expireEligible skipPageIds resetDays today c = true
    · rw [if_pos he] at h
      rcases List.mem_cons.mp h with hw | hw
      · exact ⟨c, List.mem_cons_self c rest, he, hw⟩
      · obtain ⟨d, hd, hde, hdw⟩ := ih w hw
        exact ⟨d, List.mem_cons_of_mem c hd, hde, hdw⟩
    · rw [if_neg (by simpa using he)] at h
      obtain ⟨d, hd, hde, hdw⟩ := ih w h
      exact ⟨d, List.mem_cons_of_mem c hd, hde, hdw⟩

theorem reset_write_pageId_mem (apiOk : String → Bool) (resetDays : Nat)
    (today : Int) (skipPageIds : List String) (cs : List Company)
    (w : String × UpdateProps)
    (h : w ∈ (reset_old_business_state_styles apiOk resetDays today skipPageIds cs).writes) :
    w.1 ∈ cs.map Company.pageId := by
  obtain ⟨c, hc, -, rfl⟩ := reset_writes_mem apiOk resetDays today skipPageIds cs w h
  exact List.mem_map_of_mem Company.pageId hc

theorem reset_pageId_mem_iff (apiOk : String → Bool) (resetDays : Nat) (today : Int)
    (skipPageIds : List String) :
    ∀ (cs : List Company) (c : Company), c ∈ cs →
      (cs.map Company.pageId).Nodup →
      (c.pageId ∈ (reset_old_business_state_styles apiOk resetDays today skipPageIds
          cs).writes.map Prod.fst ↔
        expireEligible skipPageIds resetDays today c = true) := by
  intro cs
  induction cs with
  | nil => intro c hc; exact absurd hc (List.not_mem_nil c)
  | cons d rest ih =>
    intro c hc hnd
    rw [List.map_cons, List.nodup_cons] at hnd
    rw [reset_writes_cons]
    have hrest : c ∈ rest →
        (c.pageId ∈ (reset_old_business_state_styles apiOk resetDays today skipPageIds
            rest).writes.map Prod.fst ↔
          expireEligible skipPageIds resetDays today c = true) :=
      fun hmem => ih c hmem hnd.2
    rcases List.mem_cons.mp hc with rfl | hc'
    · have hnotin : c.pageId ∉ (reset_old_business_state_styles apiOk resetDays today
          skipPageIds rest).writes.map Prod.fst := by
        intro hmem
        obtain ⟨w, hw, hweq⟩ := List.mem_map.mp hmem
        exact hnd.1 (hweq ▸ reset_write_pageId_mem apiOk resetDays today skipPageIds
          rest w hw)
      by_cases he : expireEligible skipPageIds resetDays today c = true
      · rw [if_pos he, List.map_cons]
        simp [he]
      · rw [if_neg (by simpa using he)]
        exact Iff.intro (fun hmem => absurd hmem hnotin) (fun hh => absurd hh he)
    · have hne : d.pageId ≠ c.pageId := by
        intro heq
        exact hnd.1 (heq ▸ List.mem_map_of_mem Company.pageId hc')
      by_cases he : expireEligible skipPageIds resetDays today d = true
      · rw [if_pos he, List.map_cons]
        rw [List.mem_cons]
        constructor
        · rintro (heq | hmem)
          · exact absurd heq.symm hne
          · exact (hrest hc').mp hmem
        · intro hh
          exact Or.inr ((hrest hc').mpr hh)
      · rw [if_neg (by simpa using he)]
        exact hrest hc'

end UpdateBusinessState

/-- C2: in a run, the style-expire transition fires for an active record if
and only if the record is styled, not in the just-updated set, and its
`business_status_update_day` is set to a date at least the configured window
(default 14) days in the past; with a 14-day window a record updated exactly
14 days ago is expired while one updated 13 days ago is not, and unstyled,
dateless, or just-synced records get no write. -/
theorem C2_style_expire (apiOk : String → Bool) (config : Option (List String))
    (today : Int) (skipPageIds : List String)
    (companies : List UpdateBusinessState.Company)
    (c : UpdateBusinessState.Company) (hc : c ∈ companies)
    (hnd : (companies.map UpdateBusinessState.Company.pageId).Nodup) :
    (c.pageId ∈ (UpdateBusinessState.reset_old_business_state_styles apiOk
        (UpdateBusinessState._load_reset_days config 14) today skipPageIds
        companies).writes.map Prod.fst ↔
      (c.pageId ∉ skipPageIds ∧ c.props.styled = true ∧
        ∃ d, c.props.updateDay = some d ∧
          d + (UpdateBusinessState._load_reset_days config 14 : Int) ≤ today)) ∧
    UpdateBusinessState._load_reset_days none 14 = 14 ∧
    (UpdateBusinessState.reset_old_business_state_styles (fun _ => true) 14 14 []
        [⟨"p1", ⟨"Funded", "Funded", "", "", true, some 0⟩⟩]).writes =
      [("p1", UpdateBusinessState.reset_business_state_style "Funded")] ∧
    (UpdateBusinessState.reset_old_business_state_styles (fun _ => true) 14 14 []
        [⟨"p1", ⟨"Funded", "Funded", "", "", true, some 1⟩⟩]).writes = [] := by
  refine ⟨?_, rfl, by decide, by decide⟩
  rw [UpdateBusinessState.reset_pageId_mem_iff apiOk
    (UpdateBusinessState._load_reset_days config 14) today skipPageIds companies c hc hnd]
  constructor
  · intro he
    simp only [UpdateBusinessState.expireEligible, Bool.and_eq_true] at he
    obtain ⟨⟨hskip, hst⟩, hday⟩ := he
    refine ⟨by simpa using hskip, hst, ?_⟩
    cases hd : c.props.updateDay with
    | none => rw [hd] at hday; simp at hday
    | some d =>
      rw [hd] at hday
      simp only [decide_eq_true_eq] at hday
      exact ⟨d, rfl, by omega⟩
  · rintro ⟨hskip, hst, d, hd, hle⟩
    simp only [UpdateBusinessState.expireEligible, Bool.and_eq_true]
    refine ⟨⟨by simpa using hskip, hst⟩, ?_⟩
    rw [hd]
    simp only [decide_eq_true_eq]
    omega

/-- Witness for C2 at a concrete styled, stale record. -/
theorem C2_style_expire_witness :
    ("p1" ∈ (UpdateBusinessState.reset_old_business_state_styles (fun _ => true)
        (UpdateBusinessState._load_reset_days none 14) 20 []
        [⟨"p1", ⟨"Funded", "Funded", "", "", true, some 2⟩⟩]).writes.map Prod.fst ↔
      (("p1" : String) ∉ ([] : List String) ∧ true = true ∧
        ∃ d, (some 2 : Option Int) = some d ∧
          d + (UpdateBusinessState._load_reset_days none 14 : Int) ≤ 20)) ∧
    UpdateBusinessState._load_reset_days none 14 = 14 := by
  have h := C2_style_expire (fun _ => true) none 20 []
    [⟨"p1", ⟨"Funded", "Funded", "", "", true, some 2⟩⟩]
    ⟨"p1", ⟨"Funded", "Funded", "", "", true, some 2⟩⟩ (by decide) (by decide)
  exact ⟨h.1, h.2.1⟩

/-- C8: `business_state_log` is append-only across one full run: every write
the run issues either leaves the log untouched (the style reset names only
`Business State`) or replaces it with the old value plus exactly one new
`"→{state}({MM/DD})"` entry, on a new line unless the old log was empty; in
particular the old log is always a prefix of the new one. -/
theorem C8_log_append_only (apiOk : String → Bool)
    (clock : UpdateBusinessState.Clock) (resetDays : Nat)
    (companies : List UpdateBusinessState.Company)
    (w : String × UpdateBusinessState.UpdateProps)
    (hw : w ∈ UpdateBusinessState.runWrites apiOk clock resetDays companies) :
    ∃ c, c ∈ companies ∧ w.1 = c.pageId ∧
      (w.2.businessStateLog = none ∨
        (w.2.businessStateLog =
          some ((if c.props.businessStateLog = "" then ""
              else c.props.businessStateLog ++ "\n") ++
            ("→" ++ c.props.businessState ++ "(" ++ clock.mmdd ++ ")")) ∧
        ∃ s, w.2.businessStateLog = some (c.props.businessStateLog ++ s))) := by
  rcases List.mem_append.mp hw with hsync | hreset
  · obtain ⟨c, hc, -, rfl⟩ :=
      UpdateBusinessState.process_writes_mem apiOk clock companies w hsync
    refine ⟨c, hc, rfl, Or.inr ⟨UpdateBusinessState.sync_business_state_log_eq
      c.props.businessState c.props.statusBuffer c.props.lastState
      c.props.businessStateLog clock true, ?_⟩⟩
    rw [UpdateBusinessState.sync_business_state_log_eq]
    by_cases h : c.props.businessStateLog = ""
    · exact ⟨"→" ++ c.props.businessState ++ "(" ++ clock.mmdd ++ ")", by rw [h]; rfl⟩
    · exact ⟨"\n" ++ ("→" ++ c.props.businessState ++ "(" ++ clock.mmdd ++ ")"),
        by rw [if_neg h, String.append_assoc]⟩
  · obtain ⟨c, hc, -, rfl⟩ := UpdateBusinessState.reset_writes_mem apiOk resetDays
      clock.today
      (UpdateBusinessState.process_active_companies apiOk clock companies).updatedPageIds
      companies w hreset
    exact ⟨c, hc, rfl, Or.inl rfl⟩

/-- Witness for C8 at a concrete one-record run whose sync write appends to a
non-empty log. -/
theorem C8_log_append_only_witness :
    ∃ c, c ∈ [(⟨"p1", ⟨"Funded", "Seed", "", "→Seed(01/01)", false, none⟩⟩ :
        UpdateBusinessState.Company)] ∧
      ("p1", UpdateBusinessState.sync_business_state "Funded" "Seed" ""
        "→Seed(01/01)" ⟨20000, "10/12"⟩ true).1 = c.pageId ∧
      ((("p1", UpdateBusinessState.sync_business_state "Funded" "Seed" ""
          "→Seed(01/01)" ⟨20000, "10/12"⟩ true) :
            String × UpdateBusinessState.UpdateProps).2.businessStateLog = none ∨
        ((("p1", UpdateBusinessState.sync_business_state "Funded" "Seed" ""
            "→Seed(01/01)" ⟨20000, "10/12"⟩ true) :
              String × UpdateBusinessState.UpdateProps).2.businessStateLog =
          some ((if c.props.businessStateLog = "" then ""
              else c.props.businessStateLog ++ "\n") ++
            ("→" ++ c.props.businessState ++ "(" ++
              (⟨20000, "10/12"⟩ : UpdateBusinessState.Clock).mmdd ++ ")")) ∧
        ∃ s, (("p1", UpdateBusinessState.sync_business_state "Funded" "Seed" ""
            "→Seed(01/01)" ⟨20000, "10/12"⟩ true) :
              String × UpdateBusinessState.UpdateProps).2.businessStateLog =
          some (c.props.businessStateLog ++ s))) :=
  C8_log_append_only (fun _ => true) ⟨20000, "10/12"⟩ 14
    [⟨"p1", ⟨"Funded", "Seed", "", "→Seed(01/01)", false, none⟩⟩]
    ("p1", UpdateBusinessState.sync_business_state "Funded" "Seed" ""
      "→Seed(01/01)" ⟨20000, "10/12"⟩ true) (by decide)

/-- C6: every item of a missing batch is attempted regardless of earlier
failures, and successes and failures are counted independently; in a batch
of three creates whose second fails the result is `created = 2`,
`failed = 1`, with all three attempted. -/
theorem C6_partial_failure_isolation (outcome : String × String → Bool)
    (batch : List (String × String)) :
    (Reconciliation.createLoop outcome batch).attempted = batch ∧
    (Reconciliation.createLoop outcome batch).created =
      (batch.filter outcome).length ∧
    (Reconciliation.createLoop outcome batch).failed =
      (batch.filter (fun i => !outcome i)).length ∧
    (Reconciliation.createLoop (fun i => i.1 != "B")
        [("A", "a"), ("B", "b"), ("C", "c")]).created = 2 ∧
    (Reconciliation.createLoop (fun i => i.1 != "B")
        [("A", "a"), ("B", "b"), ("C", "c")]).failed = 1 ∧
    (Reconciliation.createLoop (fun i => i.1 != "B")
        [("A", "a"), ("B", "b"), ("C", "c")]).attempted =
      [("A", "a"), ("B", "b"), ("C", "c")] := by
  refine ⟨?_, ?_, ?_, by decide, by decide, by decide⟩
  all_goals
    induction batch with
    | nil => rfl
    | cons item rest ih =>
      by_cases h : outcome item = true
      · simp [Reconciliation.createLoop, h, List.filter_cons, ih]
      · rw [Bool.not_eq_true] at h
        simp [Reconciliation.createLoop, h, List.filter_cons, ih]

/-- C7 counterexample: a non-fatal run of `update_business_state` in which
the single record's sync write fails (the error counter reads 1) still
reports the success status and terminates with process exit status 0, so the
claim's "any per-record sync failure gives a non-zero exit" is false for
this script. -/
theorem C7_counterexample :
    (UpdateBusinessState.process_active_companies (fun _ => false)
        ⟨20000, "10/12"⟩
        [⟨"p1", ⟨"Funded", "Seed", "", "", false, none⟩⟩]).errorCount = 1 ∧
    UpdateBusinessState.updateBusinessStateRun false (fun _ => false)
        ⟨20000, "10/12"⟩ 14
        [⟨"p1", ⟨"Funded", "Seed", "", "", false, none⟩⟩] = ("正常完了", 0) := by
  constructor <;> decide

/-- C7 amended: in a non-fatal run, `sync_databases` and
`sync_oi_issue_list` report the failure status and exit non-zero exactly
when some per-record create failed, and report success with exit 0
otherwise; `update_business_state`, however, never calls `sys.exit` and
always reports the success status and exit 0 on non-fatal runs, regardless
of per-record sync failures. -/
theorem C7_exit_status_amended (outcome : String × String → Bool)
    (missing : List (String × String)) (apiOk : String → Bool)
    (clock : UpdateBusinessState.Clock) (resetDays : Nat)
    (companies : List UpdateBusinessState.Company) (fatal : Bool)
    (hfatal : fatal = false) :
    ((Reconciliation.syncDatabasesRun fatal outcome missing).2 ≠ 0 ↔
      0 < (Reconciliation.createLoop outcome missing).failed) ∧
    ((Reconciliation.syncDatabasesRun fatal outcome missing).1 = "異常終了" ↔
      0 < (Reconciliation.createLoop outcome missing).failed) ∧
    ((Reconciliation.syncOiRun fatal outcome missing).2 ≠ 0 ↔
      0 < (Reconciliation.createLoop outcome missing).failed) ∧
    ((Reconciliation.syncOiRun fatal outcome missing).1 = "異常終了" ↔
      0 < (Reconciliation.createLoop outcome missing).failed) ∧
    (UpdateBusinessState.updateBusinessStateRun fatal apiOk clock resetDays
        companies).2 = 0 ∧
    (UpdateBusinessState.updateBusinessStateRun fatal apiOk clock resetDays
        companies).1 = "正常完了" := by
  subst hfatal
  by_cases h : 0 < (Reconciliation.createLoop outcome missing).failed
  · simp [Reconciliation.syncDatabasesRun, Reconciliation.syncOiRun,
      UpdateBusinessState.updateBusinessStateRun, h]
  · simp [Reconciliation.syncDatabasesRun, Reconciliation.syncOiRun,
      UpdateBusinessState.updateBusinessStateRun, h, Nat.not_lt.mp h]

/-- Witness for C7's amended statement at a concrete three-item batch whose
second create fails. -/
theorem C7_exit_status_amended_witness :
    ((Reconciliation.syncDatabasesRun false (fun i => i.1 != "B")
        [("A", "a"), ("B", "b"), ("C", "c")]).2 ≠ 0 ↔
      0 < (Reconciliation.createLoop (fun i => i.1 != "B")
        [("A", "a"), ("B", "b"), ("C", "c")]).failed) ∧
    ((Reconciliation.syncDatabasesRun false (fun i => i.1 != "B")
        [("A", "a"), ("B", "b"), ("C", "c")]).1 = "異常終了" ↔
      0 < (Reconciliation.createLoop (fun i => i.1 != "B")
        [("A", "a"), ("B", "b"), ("C", "c")]).failed) ∧
    ((Reconciliation.syncOiRun false (fun i => i.1 != "B")
        [("A", "a"), ("B", "b"), ("C", "c")]).2 ≠ 0 ↔
      0 < (Reconciliation.createLoop (fun i => i.1 != "B")
        [("A", "a"), ("B", "b"), ("C", "c")]).failed) ∧
    ((Reconciliation.syncOiRun false (fun i => i.1 != "B")
        [("A", "a"), ("B", "b"), ("C", "c")]).1 = "異常終了" ↔
      0 < (Reconciliation.createLoop (fun i => i.1 != "B")
        [("A", "a"), ("B", "b"), ("C", "c")]).failed) ∧
    (UpdateBusinessState.updateBusinessStateRun false (fun _ => true)
        ⟨20000, "10/12"⟩ 14 []).2 = 0 ∧
    (UpdateBusinessState.updateBusinessStateRun false (fun _ => true)
        ⟨20000, "10/12"⟩ 14 []).1 = "正常完了" :=
  C7_exit_status_amended (fun i => i.1 != "B") [("A", "a"), ("B", "b"), ("C", "c")]
    (fun _ => true) ⟨20000, "10/12"⟩ 14 [] false rfl

namespace SyncOi

theorem entryTitles_append (xs ys : List SharePage) :
    entryTitles (xs ++ ys) = entryTitles xs ++ entryTitles ys := by
  simp [entryTitles, List.filterMap_append]

theorem linkedIssueIds_cons (p : SharePage) (rest : List SharePage) :
    linkedIssueIds (p :: rest) = p.relations ++ linkedIssueIds rest := rfl

theorem linkedIssueIds_append (xs ys : List SharePage) :
    linkedIssueIds (xs ++ ys) = linkedIssueIds xs ++ linkedIssueIds ys := by
  induction xs with
  | nil => rfl
  | cons p rest ih =>
    rw [List.cons_append, linkedIssueIds_cons, linkedIssueIds_cons, ih,
      List.append_assoc]

theorem linkedIssueIds_createdPages (missing : List (String × String)) :
    linkedIssueIds (createdPages missing) = missing.map Prod.snd := by
  induction missing with
  | nil => rfl
  | cons a rest ih =>
    simp only [createdPages, List.map_cons, linkedIssueIds, List.foldr_cons] at ih ⊢
    rw [ih]
    rfl

theorem mem_missingTitles (activeIssues : List (String × String))
    (sharePages : List SharePage) (a : String × String) :
    a ∈ missingTitles activeIssues sharePages ↔
      a ∈ activeIssues ∧ a.1 ∉ entryTitles sharePages ∧
        a.2 ∉ linkedIssueIds sharePages := by
  simp [missingTitles, List.mem_filter, and_assoc]

end SyncOi

/-- C3: reconciliation is idempotent — for every pair of source and target
snapshots, after a run that successfully created a share entry (title plus
back-relation) for every missing item, a second run over the grown target
finds zero missing items and hence performs zero create operations. -/
theorem C3_idempotent_reconciliation (activeIssues : List (String × String))
    (sharePages : List SyncOi.SharePage) :
    SyncOi.missingTitles activeIssues
        (sharePages ++ SyncOi.createdPages
          (SyncOi.missingTitles activeIssues sharePages)) = [] ∧
    (SyncOi.createdPages (SyncOi.missingTitles activeIssues
        (sharePages ++ SyncOi.createdPages
          (SyncOi.missingTitles activeIssues sharePages)))).length = 0 := by
  have hempty : SyncOi.missingTitles activeIssues
      (sharePages ++ SyncOi.createdPages
        (SyncOi.missingTitles activeIssues sharePages)) = [] := by
    rw [List.eq_nil_iff_forall_not_mem]
    intro a ha
    rw [SyncOi.mem_missingTitles] at ha
    obtain ⟨hactive, htitle, hlink⟩ := ha
    by_cases hmiss : a ∈ SyncOi.missingTitles activeIssues sharePages
    · apply hlink
      rw [SyncOi.linkedIssueIds_append, List.mem_append,
        SyncOi.linkedIssueIds_createdPages]
      exact Or.inr (List.mem_map_of_mem Prod.snd hmiss)
    · rw [SyncOi.mem_missingTitles] at hmiss
      push_neg at hmiss
      rcases Classical.em (a.1 ∈ SyncOi.entryTitles sharePages) with ht | ht
      · exact htitle (by rw [SyncOi.entryTitles_append, List.mem_append]; exact Or.inl ht)
      · exact hlink (by
          rw [SyncOi.linkedIssueIds_append, List.mem_append]
          exact Or.inl (hmiss hactive ht))
  exact ⟨hempty, by rw [hempty]; rfl⟩

/-- C4 counterexample: a status-typed flag named `Active` is accepted by
`sync_databases.is_active_flag` but rejected by the inline active checks of
`update_business_state` and `sync_oi_issue_list`, so the claim that every
component treats status-typed and select-typed `Active` flags identically is
false. -/
theorem C4_counterexample :
    SyncDatabases.is_active_flag (.statusFlag (some "Active")) = true ∧
    SyncDatabases.updateBusinessStateActiveCheck (.statusFlag (some "Active")) = false ∧
    SyncDatabases.syncOiActiveCheck (.statusFlag (some "Active")) = false ∧
    SyncDatabases.updateBusinessStateActiveCheck (.selectFlag (some "Active")) = true ∧
    SyncDatabases.syncOiActiveCheck (.selectFlag (some "Active")) = true := by
  decide

/-- C4 amended: only `sync_databases.is_active_flag` treats a status-typed
flag named `Active` like a select-typed one; the active filters of
`update_business_state` and `sync_oi_issue_list` accept exactly a
select-typed flag named `Active`; in all three, records whose flag has any
other name, is empty, is of another type, or is absent are excluded. -/
theorem C4_active_flag_amended (flag : SyncDatabases.ActiveFlagProp) :
    (SyncDatabases.is_active_flag flag = true ↔
      (flag = .selectFlag (some "Active") ∨ flag = .statusFlag (some "Active"))) ∧
    (SyncDatabases.updateBusinessStateActiveCheck flag = true ↔
      flag = .selectFlag (some "Active")) ∧
    (SyncDatabases.syncOiActiveCheck flag = true ↔
      flag = .selectFlag (some "Active")) := by
  cases flag with
  | selectFlag name =>
    cases name <;>
      simp [SyncDatabases.is_active_flag, SyncDatabases.updateBusinessStateActiveCheck,
        SyncDatabases.syncOiActiveCheck]
  | statusFlag name =>
    cases name <;>
      simp [SyncDatabases.is_active_flag, SyncDatabases.updateBusinessStateActiveCheck,
        SyncDatabases.syncOiActiveCheck]
  | otherType =>
    simp [SyncDatabases.is_active_flag, SyncDatabases.updateBusinessStateActiveCheck,
      SyncDatabases.syncOiActiveCheck]
  | absent =>
    simp [SyncDatabases.is_active_flag, SyncDatabases.updateBusinessStateActiveCheck,
      SyncDatabases.syncOiActiveCheck]

/-- C5 counterexample: on a page whose primary `企業名` title has a single
empty fragment and whose `Name` rollup wraps the title `"Acme"`,
`get_company_name` returns `some ""` — not the first non-empty candidate
`"Acme"` and not `None` — refuting the claimed contract. -/
theorem C5_counterexample :
    SyncDatabases.get_company_name
        ⟨some [""], some [.titleItem ["Acme"]], none⟩ = some "" ∧
    SyncDatabases.identitySpec
        ⟨some [""], some [.titleItem ["Acme"]], none⟩ = some "Acme" ∧
    SyncDatabases.get_company_name
        ⟨some [""], some [.titleItem ["Acme"]], none⟩ ≠
      SyncDatabases.identitySpec
        ⟨some [""], some [.titleItem ["Acme"]], none⟩ := by
  refine ⟨rfl, rfl, ?_⟩
  decide

namespace SyncDatabases

theorem findSome?_eq_head?_filterMap {α β : Type} (f : α → Option β) (l : List α) :
    l.findSome? f = (l.filterMap f).head? := by
  induction l with
  | nil => rfl
  | cons a rest ih =>
    rw [List.findSome?_cons, List.filterMap_cons]
    cases h : f a
    · exact ih
    · rfl

theorem getFromRollup_eq (page : CnPage) :
    get_company_name.getFromRollup page =
      (rollupCandidates page ++ secondaryCandidates page).head? := by
  obtain ⟨k, r, n⟩ := page
  have hsec : (match n with
      | some frags =>
        if frags ≠ [] then
          let text := String.join frags
          if !isDigitStr text then some text else none
        else none
      | none => none) =
      (secondaryCandidates ⟨k, r, n⟩).head? := by
    cases n with
    | none => rfl
    | some frags =>
      by_cases hf : frags = []
      · subst hf; simp [secondaryCandidates]
      · by_cases hd : isDigitStr (String.join frags) = true
        · simp [secondaryCandidates, hf, hd]
        · rw [Bool.not_eq_true] at hd
          simp [secondaryCandidates, hf, hd]
  cases r with
  | none =>
    simp only [get_company_name.getFromRollup, rollupCandidates, List.nil_append]
    exact hsec
  | some items =>
    simp only [get_company_name.getFromRollup, rollupCandidates]
    rw [findSome?_eq_head?_filterMap]
    cases hh : (items.filterMap fun item =>
        match item with
        | RollupItem.titleItem frags =>
          if frags ≠ [] then some (String.join frags) else none
        | RollupItem.otherItem => none).head? with
    | some v =>
      obtain ⟨t, ts, hts⟩ : ∃ t ts, (items.filterMap fun item =>
          match item with
          | RollupItem.titleItem frags =>
            if frags ≠ [] then some (String.join frags) else none
          | RollupItem.otherItem => none) = t :: ts := by
        cases hl : (items.filterMap fun item =>
            match item with
            | RollupItem.titleItem frags =>
              if frags ≠ [] then some (String.join frags) else none
            | RollupItem.otherItem => none) with
        | nil => rw [hl] at hh; simp at hh
        | cons t ts => exact ⟨t, ts, rfl⟩
      rw [hts] at hh ⊢
      simp only [List.head?_cons, Option.some.injEq] at hh
      simp [hh]
    | none =>
      have hl : (items.filterMap fun item =>
          match item with
          | RollupItem.titleItem frags =>
            if frags ≠ [] then some (String.join frags) else none
          | RollupItem.otherItem => none) = [] := by
        cases hl : (items.filterMap fun item =>
            match item with
            | RollupItem.titleItem frags =>
              if frags ≠ [] then some (String.join frags) else none
            | RollupItem.otherItem => none) with
        | nil => rfl
        | cons t ts => rw [hl] at hh; simp at hh
      rw [hl]
      simp only [List.take_nil, List.nil_append]
      exact hsec

theorem get_company_name_eq_amended (page : CnPage) :
    get_company_name page = identityAmended page := by
  obtain ⟨k, r, n⟩ := page
  cases k with
  | none =>
    rw [show get_company_name ⟨none, r, n⟩ =
        get_company_name.getFromRollup ⟨none, r, n⟩ from rfl]
    rw [getFromRollup_eq]
    simp [identityAmended, primaryCandidates]
  | some frags =>
    by_cases hf : frags = []
    · subst hf
      rw [show get_company_name ⟨some [], r, n⟩ =
          get_company_name.getFromRollup ⟨some [], r, n⟩ from rfl]
      rw [getFromRollup_eq]
      simp [identityAmended, primaryCandidates]
    · rw [show get_company_name ⟨some frags, r, n⟩ =
          (if frags ≠ [] then some (String.join frags)
            else get_company_name.getFromRollup ⟨some frags, r, n⟩) from rfl]
      simp [identityAmended, primaryCandidates, hf]

end SyncDatabases

/-- C5 amended: identity extraction tries the candidates in the fixed
priority order but keys acceptance on a candidate's fragment list being
non-empty rather than its text: it returns the joined text of the first
candidate field whose fragment list is non-empty (rejecting a purely numeric
secondary title), and that text may itself be empty; it returns `None` only
when no candidate qualifies.  The claim's two concrete examples hold: a page
with primary title `"Acme"` and numeric secondary `"42"` yields `"Acme"`,
and a page with only the numeric secondary yields `None`. -/
theorem C5_identity_amended :
    (∀ page : SyncDatabases.CnPage,
      SyncDatabases.get_company_name page = SyncDatabases.identityAmended page) ∧
    SyncDatabases.get_company_name ⟨some ["Acme"], none, some ["42"]⟩ =
      some "Acme" ∧
    SyncDatabases.get_company_name ⟨none, none, some ["42"]⟩ = none :=
  ⟨SyncDatabases.get_company_name_eq_amended, by decide, by decide⟩

namespace SyncOi

theorem stagePair_none_of_empty_or_match (props : List (String × PropValue))
    (pair : String × String)
    (h : extract_plain_text_from_property (getProp props pair.1) = "" ∨
      extract_plain_text_from_property (getProp props pair.1) =
        extract_plain_text_from_property (getProp props pair.2)) :
    stagePair props pair = none := by
  unfold stagePair
  cases hs : getProp props pair.1 with
  | none => rfl
  | some s =>
    cases ht : getProp props pair.2 with
    | none => rfl
    | some t =>
      rw [hs, ht] at h
      by_cases he : extract_plain_text_from_property (some s) = ""
      · simp [he]
      · rcases h with h | h
        · exact absurd h he
        · have hm : property_matches (some t)
              (extract_plain_text_from_property (some s)) = true := by
            unfold property_matches
            rw [h]
            exact beq_self_eq_true _
          simp [he, hm]

theorem copy_write_pageId_mem (pages : List OiPage)
    (w : String × List (String × WritePayload))
    (hw : w ∈ copy_reference_properties pages) :
    w.1 ∈ pages.map OiPage.pageId := by
  unfold copy_reference_properties at hw
  obtain ⟨page, hp, hf⟩ := List.mem_filterMap.mp hw
  by_cases hemp : (referencePairs.filterMap (stagePair page.props)).isEmpty = true
  · rw [if_pos hemp] at hf
    cases hf
  · rw [if_neg hemp] at hf
    obtain rfl := (Option.some.injEq _ _).mp hf
    exact List.mem_map_of_mem OiPage.pageId hp

theorem copy_cons (d : OiPage) (rest : List OiPage) :
    copy_reference_properties (d :: rest) =
      if (referencePairs.filterMap (stagePair d.props)).isEmpty then
        copy_reference_properties rest
      else
        (d.pageId, referencePairs.filterMap (stagePair d.props)) ::
          copy_reference_properties rest := by
  unfold copy_reference_properties
  rw [List.filterMap_cons]
  by_cases hemp : (referencePairs.filterMap (stagePair d.props)).isEmpty = true
  · rw [if_pos hemp, if_pos hemp]
  · rw [if_neg hemp, if_neg hemp]

end SyncOi

/-- C9: FieldMirror stages no update for a field pair whose source text is
empty or already equal to the target's text (absent fields included), and a
record for which no pair stages an update receives zero write calls. -/
theorem C9_mirror_noop :
    (∀ (props : List (String × SyncOi.PropValue)) (pair : String × String),
      (SyncOi.extract_plain_text_from_property (SyncOi.getProp props pair.1) = "" ∨
        SyncOi.extract_plain_text_from_property (SyncOi.getProp props pair.1) =
          SyncOi.extract_plain_text_from_property (SyncOi.getProp props pair.2)) →
      SyncOi.stagePair props pair = none) ∧
    (∀ (pages : List SyncOi.OiPage) (page : SyncOi.OiPage), page ∈ pages →
      (pages.map SyncOi.OiPage.pageId).Nodup →
      (∀ pr ∈ SyncOi.referencePairs, SyncOi.stagePair page.props pr = none) →
      page.pageId ∉ (SyncOi.copy_reference_properties pages).map Prod.fst) := by
  refine ⟨SyncOi.stagePair_none_of_empty_or_match, ?_⟩
  intro pages
  induction pages with
  | nil => intro page hp; exact absurd hp (List.not_mem_nil page)
  | cons d rest ih =>
    intro page hp hnd hall
    rw [List.map_cons, List.nodup_cons] at hnd
    rw [SyncOi.copy_cons]
    rcases List.mem_cons.mp hp with rfl | hp'
    · have hempty : (SyncOi.referencePairs.filterMap (SyncOi.stagePair page.props)) = [] :=
        List.filterMap_eq_nil_iff.mpr hall
      rw [hempty]
      simp only [List.isEmpty_nil, if_true]
      intro hmem
      obtain ⟨w, hw, hweq⟩ := List.mem_map.mp hmem
      exact hnd.1 (hweq ▸ SyncOi.copy_write_pageId_mem rest w hw)
    · have hne : d.pageId ≠ page.pageId := by
        intro heq
        exact hnd.1 (heq ▸ List.mem_map_of_mem SyncOi.OiPage.pageId hp')
      by_cases hemp : (SyncOi.referencePairs.filterMap
          (SyncOi.stagePair d.props)).isEmpty = true
      · rw [if_pos hemp]
        exact ih page hp' hnd.2 hall
      · rw [if_neg hemp, List.map_cons, List.mem_cons]
        rintro (heq | hmem)
        · exact hne heq.symm
        · exact ih page hp' hnd.2 hall hmem

/-- Witness for C9 at a concrete page whose first pair already matches and
whose second pair has an empty source. -/
theorem C9_mirror_noop_witness :
    SyncOi.stagePair
        [("オープンイノベーションとの親和性_ref", SyncOi.PropValue.richTextProp ["X"]),
         ("オープンイノベーションとの親和性", SyncOi.PropValue.richTextProp ["X"]),
         ("探索難易度_ref", SyncOi.PropValue.richTextProp []),
         ("探索難易度", SyncOi.PropValue.richTextProp ["Y"])]
        ("オープンイノベーションとの親和性_ref", "オープンイノベーションとの親和性") = none ∧
    ("p9" : String) ∉ (SyncOi.copy_reference_properties
        [⟨"p9",
          [("オープンイノベーションとの親和性_ref", SyncOi.PropValue.richTextProp ["X"]),
           ("オープンイノベーションとの親和性", SyncOi.PropValue.richTextProp ["X"]),
           ("探索難易度_ref", SyncOi.PropValue.richTextProp []),
           ("探索難易度", SyncOi.PropValue.richTextProp ["Y"])]⟩]).map Prod.fst := by
  have h := C9_mirror_noop
  refine ⟨h.1 _ _ (Or.inr (by decide)), ?_⟩
  exact h.2
    [⟨"p9",
      [("オープンイノベーションとの親和性_ref", SyncOi.PropValue.richTextProp ["X"]),
       ("オープンイノベーションとの親和性", SyncOi.PropValue.richTextProp ["X"]),
       ("探索難易度_ref", SyncOi.PropValue.richTextProp []),
       ("探索難易度", SyncOi.PropValue.richTextProp ["Y"])]⟩]
    ⟨"p9",
      [("オープンイノベーションとの親和性_ref", SyncOi.PropValue.richTextProp ["X"]),
       ("オープンイノベーションとの親和性", SyncOi.PropValue.richTextProp ["X"]),
       ("探索難易度_ref", SyncOi.PropValue.richTextProp []),
       ("探索難易度", SyncOi.PropValue.richTextProp ["Y"])]⟩
    (by decide) (by decide) (by decide)

/-- C10: `save_execution_log` never propagates an exception to its caller —
whatever the outcome of creating the log page or of the cleanup (whose query
may raise while its per-page archive failures are already caught inside the
loop), the function returns normally, reporting failures only as printed
messages. -/
theorem C10_logging_isolated (createPage : ExecutionLogger.LogPage → Except String Unit)
    (queryOldPages : Except String (List String)) (archiveOk : String → Bool)
    (hasToken : Bool) (page : ExecutionLogger.LogPage) :
    ((ExecutionLogger.save_execution_log createPage
        (ExecutionLogger.cleanup_old_logs queryOldPages archiveOk) hasToken
        page).2 = Except.ok ()) ∧
    (∀ pages, queryOldPages = Except.ok pages →
      ∃ r, ExecutionLogger.cleanup_old_logs queryOldPages archiveOk = Except.ok r) ∧
    (∀ e, createPage page = Except.error e →
      ("✗ Failed to save execution log: " ++ e) ∈
        (ExecutionLogger.save_execution_log createPage
          (ExecutionLogger.cleanup_old_logs queryOldPages archiveOk) hasToken
          page).1) := by
  refine ⟨?_, ?_, ?_⟩
  · unfold ExecutionLogger.save_execution_log ExecutionLogger.attemptSaveLog
    cases hcr : createPage page with
    | error e => rfl
    | ok u =>
      cases hasToken with
      | false => rfl
      | true =>
        cases hcl : ExecutionLogger.cleanup_old_logs queryOldPages archiveOk with
        | error e => rfl
        | ok r => rfl
  · intro pages hq
    rw [hq]
    exact ⟨_, rfl⟩
  · intro e he
    unfold ExecutionLogger.save_execution_log ExecutionLogger.attemptSaveLog
    rw [he]
    simp

/-- Witness for C10: a failing page create and a failing cleanup query are
both absorbed; the caller sees a normal return. -/
theorem C10_logging_isolated_witness :
    ((ExecutionLogger.save_execution_log
        (fun _ => Except.error "boom")
        (ExecutionLogger.cleanup_old_logs (Except.ok ["old1"]) (fun _ => false))
        true ⟨"n", "d", "s", "l"⟩).2 = Except.ok ()) ∧
    (∃ r, ExecutionLogger.cleanup_old_logs (Except.ok ["old1"]) (fun _ => false) =
      Except.ok r) ∧
    (("✗ Failed to save execution log: " ++ "boom") ∈
      (ExecutionLogger.save_execution_log
        (fun _ => Except.error "boom")
        (ExecutionLogger.cleanup_old_logs (Except.ok ["old1"]) (fun _ => false))
        true ⟨"n", "d", "s", "l"⟩).1) := by
  have h := C10_logging_isolated (fun _ => Except.error "boom")
    (Except.ok ["old1"]) (fun _ => false) true ⟨"n", "d", "s", "l"⟩
  exact ⟨h.1, h.2.1 ["old1"] rfl, h.2.2 "boom" rfl⟩

/-- Witness for C1 at a concrete diverged record. -/
theorem C1_sync_transition_witness :
    ((UpdateBusinessState.process_active_companies (fun _ => true) ⟨20000, "10/12"⟩
        [⟨"p1", ⟨"Funded", "Seed", "", "", false, none⟩⟩]).writes.filter
        (fun w => w.1 == "p1") =
      [("p1", UpdateBusinessState.sync_business_state "Funded" "Seed" "" ""
        ⟨20000, "10/12"⟩ true)]) ∧
    (UpdateBusinessState.sync_business_state "Funded" "Seed" "" ""
        ⟨20000, "10/12"⟩ true).lastState = some "Seed" ∧
    (UpdateBusinessState.sync_business_state "Funded" "Seed" "" ""
        ⟨20000, "10/12"⟩ true).statusBuffer = some "Funded" ∧
    (UpdateBusinessState.sync_business_state "Funded" "Seed" "" ""
        ⟨20000, "10/12"⟩ true).businessStateLog = some "→Funded(10/12)" := by
  have h := C1_sync_transition (fun _ => true) ⟨20000, "10/12"⟩
    [⟨"p1", ⟨"Funded", "Seed", "", "", false, none⟩⟩]
    ⟨"p1", ⟨"Funded", "Seed", "", "", false, none⟩⟩ (by decide) (by decide)
  obtain ⟨h1, h2⟩ := h
  obtain ⟨ha, hb, -, hd, -⟩ := h2 "Funded" "Seed" "" ""
  refine ⟨?_, ha, hb, ?_⟩
  · rw [h1, if_pos (by decide)]
  · rw [hd]; decide


